import Mathlib

/-
Shallow embedding of the kupfer-plugins repository (hamster.py, hotot.py,
media_players.py): thin adapters that forward user selections to remote
DBus interfaces of running desktop applications.

Python-level effects are made explicit: a DBus connection attempt either
yields the remote object or raises a DBusException (modelled by `BusReply`);
method calls on a possibly-`None` helper result follow Python semantics,
where `None.method(...)` raises an AttributeError (modelled by `PyResult`).
-/

/-- A remote DBus object, identified by bus name and object path. -/
structure DBusObject where
  busName : String
  objectPath : String
deriving DecidableEq

/-- A DBus interface proxy on a remote object (`dbus.Interface(obj, iface)`). -/
structure DBusInterface where
  obj : DBusObject
  ifaceName : String
deriving DecidableEq

/-- Outcome of the session bus answering the `bus.get_object` request made by a
connection helper: either it succeeds, or it raises a DBusException whose
message is `err`. -/
inductive BusReply where
  | ok
  | dbusException (err : String)
deriving DecidableEq

/-- What one call to a connection helper produced: the Python return value
(`None` on failure), the debug lines written via `pretty.print_debug`, and how
many connection attempts the call made. -/
structure HelperResult where
  result : Option DBusInterface
  logLines : List String
  attempts : Nat
deriving DecidableEq

/-- `get_hamster` from hamster.py: one `bus.get_object('org.gnome.Hamster',
'/org/gnome/Hamster')` attempt wrapped in `dbus.Interface(_, 'org.gnome.Hamster')`;
a DBusException is caught, printed with `pretty.print_debug`, and `None` is
returned. -/
def get_hamster (r : BusReply) : HelperResult :=
  match r with
  | .ok =>
      ⟨some ⟨⟨"org.gnome.Hamster", "/org/gnome/Hamster"⟩, "org.gnome.Hamster"⟩, [], 1⟩
  | .dbusException err => ⟨none, [err], 1⟩

/-- `get_hotot` from hotot.py: one `bus.get_object('org.hotot.service',
'/org/hotot/service')` attempt wrapped in `dbus.Interface(_, 'org.hotot.service')`;
a DBusException is caught, printed with `pretty.print_debug`, and `None` is
returned. -/
def get_hotot (r : BusReply) : HelperResult :=
  match r with
  | .ok =>
      ⟨some ⟨⟨"org.hotot.service", "/org/hotot/service"⟩, "org.hotot.service"⟩, [], 1⟩
  | .dbusException err => ⟨none, [err], 1⟩

/-- A Python value forwarded as an argument of a remote call. -/
inductive PyVal where
  | str (s : String)
  | int (n : Int)
  | bool (b : Bool)
deriving DecidableEq

/-- A remote procedure invocation: which interface proxy, which method, which
arguments. -/
structure RemoteCall where
  iface : DBusInterface
  method : String
  args : List PyVal
deriving DecidableEq

/-- The Python exceptions these code paths can raise. -/
inductive PyExc where
  | attributeError (msg : String)
  | keyError (key : String)
deriving DecidableEq

/-- Result of running a fragment of Python code: a value, or an uncaught
exception. -/
inductive PyResult (α : Type) where
  | ok (val : α)
  | raised (e : PyExc)
deriving DecidableEq

/-- Python semantics of `helper_result.method(args)`: when the helper returned
`None`, attribute access on `None` raises an AttributeError; otherwise the
remote method is invoked on the interface proxy. -/
def callRemote (o : Option DBusInterface) (method : String) (args : List PyVal) :
    PyResult RemoteCall :=
  match o with
  | none => .raised (.attributeError ("NoneType object has no attribute " ++ method))
  | some i => .ok ⟨i, method, args⟩

/-- The Hamster app ids, `HAMSTER_APPNAMES` in hamster.py. -/
def HAMSTER_APPNAMES : List String := ["hamster-indicator", "hamster-time-tracker"]

/-- `Toggle.valid_for_item` from hamster.py:
`item.get_id() in HAMSTER_APPNAMES and get_hamster() != None`. -/
def Toggle_valid_for_item (itemId : String) (r : BusReply) : Bool :=
  HAMSTER_APPNAMES.contains itemId && (get_hamster r).result.isSome

/-- `Toggle.activate` from hamster.py: `get_hamster().Toggle()` with no `None`
check on the helper result. -/
def Toggle_activate (r : BusReply) : PyResult RemoteCall :=
  callRemote (get_hamster r).result "Toggle" []

/-- `StartActivity.activate` from hamster.py:
`get_hamster().AddFact(leaf.object, time.time() - time.timezone, 0, False)`.
`now` stands for `time.time()` and `tz` for `time.timezone`, in seconds. -/
def StartActivity_activate (leafText : String) (now tz : Int) (r : BusReply) :
    PyResult RemoteCall :=
  callRemote (get_hamster r).result "AddFact"
    [.str leafText, .int (now - tz), .int 0, .bool false]

/-- `StopTrackingLeaf.run` from hamster.py:
`get_hamster().StopTracking(time.time() - time.timezone)`. -/
def StopTrackingLeaf_run (now tz : Int) (r : BusReply) : PyResult RemoteCall :=
  callRemote (get_hamster r).result "StopTracking" [.int (now - tz)]

/-- The body of the `if act[1]:` branch in `ActivitiesSource.get_items`: the
leaf name is `act[0]`, with `'@' + act[1]` appended when `act[1]` is truthy
(a Python string is truthy exactly when it is non-empty). -/
def formatActivity (act : String × String) : String :=
  if act.2 ≠ "" then act.1 ++ "@" ++ act.2 else act.1

/-- `ActivitiesSource.get_items` from hamster.py: iterates
`get_hamster().GetActivities('')` — with no `None` check on the helper result —
and yields one `ActivityLeaf(activity)` per record. `acts` is the list of
(name, category) records the remote `GetActivities` call returns when the
connection succeeded; the yielded value is each leaf's name. -/
def ActivitiesSource_get_items (r : BusReply) (acts : List (String × String)) :
    PyResult (List String) :=
  match callRemote (get_hamster r).result "GetActivities" [.str ""] with
  | .raised e => .raised e
  | .ok _ => .ok (acts.map formatActivity)

/-- Python `text.replace('"', '\\"')` as used in `SendUpdate.activate`: every
double-quote character is replaced by a backslash followed by a double quote
(single-character pattern, so occurrences are independent). -/
def escapeQuotes (s : String) : String :=
  String.mk (s.data.foldr (fun c acc => if c = '\"' then '\\' :: '\"' :: acc else c :: acc) [])

/-- `SendUpdate.activate` from hotot.py: escapes double quotes in the selected
text leaf's text and invokes `get_hotot().update_status(text)` with the escaped
text as single argument. (The two `pretty.print_debug` lines write to the debug
log only.) -/
def SendUpdate_activate (leafText : String) (r : BusReply) : PyResult RemoteCall :=
  callRemote (get_hotot r).result "update_status" [.str (escapeQuotes leafText)]

/-- `HototAction.valid_for_item` from hotot.py:
`item.name == 'Hotot' and get_hotot() != None`. -/
def HototAction_valid_for_item (itemName : String) (r : BusReply) : Bool :=
  (itemName == "Hotot") && (get_hotot r).result.isSome

/-- `MediaPlayer` from media_players.py: wraps the DBus object obtained at
`bus.get_object(name, '/org/mpris/MediaPlayer2')`. -/
structure MediaPlayer where
  dbusObj : DBusObject
deriving DecidableEq

/-- `MediaPlayer.root`: `dbus.Interface(self._dbus_obj, 'org.mpris.MediaPlayer2')`. -/
def MediaPlayer.root (p : MediaPlayer) : DBusInterface :=
  ⟨p.dbusObj, "org.mpris.MediaPlayer2"⟩

/-- `MediaPlayer.player`: `dbus.Interface(self._dbus_obj, 'org.mpris.MediaPlayer2.Player')`. -/
def MediaPlayer.player (p : MediaPlayer) : DBusInterface :=
  ⟨p.dbusObj, "org.mpris.MediaPlayer2.Player"⟩

/-- The session bus as `reindex` observes it: the result of `ListNames` on
`org.freedesktop.DBus`, and, per bus name, the `DesktopEntry` root property that
`MediaPlayer.name` reads for the object registered under that name. -/
structure MprisBus where
  names : List String
  desktopEntryOf : String → String

/-- Python dict assignment `d[k] = v`: overwrite an existing binding in place,
or append a new one. -/
def dictSet {α : Type} (t : List (String × α)) (k : String) (v : α) : List (String × α) :=
  match t with
  | [] => [(k, v)]
  | (k0, v0) :: rest => if k0 = k then (k, v) :: rest else (k0, v0) :: dictSet rest k v

/-- Python dict lookup `d[k]` as an Option (the first binding for `k`). -/
def dictGet {α : Type} (t : List (String × α)) (k : String) : Option α :=
  match t with
  | [] => none
  | (k0, v0) :: rest => if k0 = k then some v0 else dictGet rest k

/-- The keys of a dict, in insertion order (Python `for k in d`). -/
def dictKeys {α : Type} (t : List (String × α)) : List String := t.map (·.1)

/-- Python `str.startswith` as a prefix test on the character lists. -/
def pyStartsWith (s pre : String) : Bool := pre.data.isPrefixOf s.data

/-- One iteration of the `for name in dbusObj.ListNames(...)` loop in
`MediaPlayersRegistry.reindex`: names starting with `'org.mpris.MediaPlayer2.'`
are registered under the player's name (its `DesktopEntry` property); other
names leave the table alone. -/
def reindexStep (bus : MprisBus) (t : List (String × MediaPlayer)) (name : String) :
    List (String × MediaPlayer) :=
  if pyStartsWith name "org.mpris.MediaPlayer2." then
    dictSet t (bus.desktopEntryOf name) ⟨⟨name, "/org/mpris/MediaPlayer2"⟩⟩
  else t

/-- `MediaPlayersRegistry.reindex` from media_players.py: resets
`self.active_players = {}` and repopulates it from the current `ListNames`
answer, so the previous table (`old`) is discarded wholesale. -/
def reindex (bus : MprisBus) (old : List (String × MediaPlayer)) :
    List (String × MediaPlayer) :=
  let _ := old
  bus.names.foldl (reindexStep bus) []

/-- `MediaPlayersRegistry._signal_update` from media_players.py: on a
`NameOwnerChanged` notification, `reindex` runs iff the argument list is
non-empty and its first element starts with `'org.mpris.MediaPlayer2.'`.
Returns the new table and whether `reindex` was called. -/
def signal_update (bus : MprisBus) (st : List (String × MediaPlayer))
    (args : List String) : List (String × MediaPlayer) × Bool :=
  match args with
  | [] => (st, false)
  | a :: _ => if pyStartsWith a "org.mpris.MediaPlayer2." then (reindex bus st, true)
              else (st, false)

/-- `MediaPlayersRegistry.players`: yields each key of `self.active_players`. -/
def registry_players (t : List (String × MediaPlayer)) : List String := dictKeys t

/-- `MediaPlayersRegistry.get_player`: `self.active_players[name]`, which raises
a KeyError when the key is absent. -/
def registry_get_player (t : List (String × MediaPlayer)) (name : String) :
    PyResult MediaPlayer :=
  match dictGet t name with
  | some p => .ok p
  | none => .raised (.keyError name)

/-- The seven `MediaPlayerCommandLeaf` subclasses in media_players.py. -/
inductive CommandLeaf where
  | playPause | play | stop | pause | next | previous | quit
deriving DecidableEq

/-- `do_command` of each `MediaPlayerCommandLeaf` subclass: `Quit` calls
`player.root.Quit()`, every other leaf calls the matching method on
`player.player`. -/
def do_command (c : CommandLeaf) (p : MediaPlayer) : RemoteCall :=
  match c with
  | .playPause => ⟨p.player, "PlayPause", []⟩
  | .play => ⟨p.player, "Play", []⟩
  | .stop => ⟨p.player, "Stop", []⟩
  | .pause => ⟨p.player, "Pause", []⟩
  | .next => ⟨p.player, "Next", []⟩
  | .previous => ⟨p.player, "Previous", []⟩
  | .quit => ⟨p.root, "Quit", []⟩

/-- `MediaPlayerCommandsSource.get_items`: yields the seven command leaves in
source order. -/
def MediaPlayerCommandsSource_get_items : List CommandLeaf :=
  [.playPause, .play, .stop, .pause, .next, .previous, .quit]

/-- A leaf as seen by `MediaPlayersGenerator.get_actions_for_leaf`: either one
of the command leaves, or any other leaf of the host launcher. -/
inductive KupferLeaf where
  | command (c : CommandLeaf)
  | other (name : String)
deriving DecidableEq

/-- `MediaPlayerAction.__init__`: stores the result of
`media_players_registry.get_player(player)` together with the action name. -/
structure MediaPlayerAction where
  name : String
  resolved : MediaPlayer
deriving DecidableEq

/-- `MediaPlayerAction(player)`: resolves the player name through the registry;
an absent key raises a KeyError out of the constructor. -/
def mkMediaPlayerAction (t : List (String × MediaPlayer)) (name : String) :
    PyResult MediaPlayerAction :=
  match dictGet t name with
  | some p => .ok ⟨name, p⟩
  | none => .raised (.keyError name)

/-- Sequencing a Python list comprehension: the first raised exception escapes,
otherwise the list of values is produced. -/
def seqResults {α : Type} : List (PyResult α) → PyResult (List α)
  | [] => .ok []
  | .raised e :: _ => .raised e
  | .ok a :: rest =>
      match seqResults rest with
      | .ok xs => .ok (a :: xs)
      | .raised e => .raised e

/-- `MediaPlayersGenerator.get_actions_for_leaf`: for a `MediaPlayerCommandLeaf`
builds `[MediaPlayerAction(player) for player in media_players_registry.players]`;
for any other leaf returns `[]`. -/
def get_actions_for_leaf (t : List (String × MediaPlayer)) (leaf : KupferLeaf) :
    PyResult (List MediaPlayerAction) :=
  match leaf with
  | .command _ => seqResults ((registry_players t).map (mkMediaPlayerAction t))
  | .other _ => .ok []

/-- The last name of the list that survives the loop's filter and maps to key
`k`: because later loop iterations overwrite earlier dict entries, this is the
name whose `MediaPlayer` ends up registered under `k` after `reindex`. -/
def lastMatch (bus : MprisBus) (k : String) : List String → Option String
  | [] => none
  | n :: rest =>
      match lastMatch bus k rest with
      | some m => some m
      | none =>
          if pyStartsWith n "org.mpris.MediaPlayer2." && (bus.desktopEntryOf n == k)
          then some n else none

/-- A concrete session-bus snapshot used to exercise the registry: one MPRIS2
player and one unrelated bus name. -/
def sampleBus : MprisBus :=
  ⟨["org.mpris.MediaPlayer2.vlc", "org.freedesktop.Notifications"],
   fun n => if n = "org.mpris.MediaPlayer2.vlc" then "vlc" else "unknown"⟩

/-- A concrete registry table with a single registered player. -/
def sampleTable : List (String × MediaPlayer) :=
  [("vlc", ⟨⟨"org.mpris.MediaPlayer2.vlc", "/org/mpris/MediaPlayer2"⟩⟩)]

/- Helper lemmas shared by the theorems below. -/

lemma dictGet_dictSet {α : Type} (t : List (String × α)) (k k' : String) (v : α) :
    dictGet (dictSet t k v) k' = if k = k' then some v else dictGet t k' := by
  induction t with
  | nil => simp [dictSet, dictGet]
  | cons hd tl ih =>
      obtain ⟨k0, v0⟩ := hd
      simp only [dictSet, dictGet]
      by_cases h1 : k0 = k
      · subst h1
        by_cases h2 : k0 = k'
        · subst h2; simp [dictGet]
        · simp [dictGet, h2]
      · by_cases h2 : k0 = k'
        · subst h2
          have hk : ¬ k = k0 := fun h => h1 h.symm
          simp [dictGet, h1, hk]
        · simp [dictGet, h1, h2, ih]

lemma dictGet_isSome_of_mem {α : Type} (t : List (String × α)) (k : String)
    (h : k ∈ dictKeys t) : ∃ v, dictGet t k = some v := by
  induction t with
  | nil => simp [dictKeys] at h
  | cons hd tl ih =>
      obtain ⟨k0, v0⟩ := hd
      by_cases h0 : k0 = k
      · exact ⟨v0, by simp [dictGet, h0]⟩
      · have hm : k ∈ dictKeys tl := by
          simp only [dictKeys, List.map_cons, List.mem_cons] at h
          rcases h with h | h
          · exact absurd h.symm h0
          · exact h
        obtain ⟨v, hv⟩ := ih hm
        exact ⟨v, by simp [dictGet, h0, hv]⟩

lemma dictGet_foldl_reindexStep (bus : MprisBus) (l : List String)
    (t0 : List (String × MediaPlayer)) (k : String) :
    dictGet (l.foldl (reindexStep bus) t0) k =
      match lastMatch bus k l with
      | some n => some ⟨⟨n, "/org/mpris/MediaPlayer2"⟩⟩
      | none => dictGet t0 k := by
  induction l generalizing t0 with
  | nil => simp [lastMatch]
  | cons n rest ih =>
      rw [List.foldl_cons, ih]
      cases hrest : lastMatch bus k rest with
      | some m => simp [lastMatch, hrest]
      | none =>
          simp only [lastMatch, hrest]
          by_cases hs : pyStartsWith n "org.mpris.MediaPlayer2." = true
          · by_cases hk : bus.desktopEntryOf n = k
            · simp [reindexStep, hs, hk, dictGet_dictSet]
            · have hk' : (bus.desktopEntryOf n == k) = false := by
                simp [hk]
              simp [reindexStep, hs, hk', dictGet_dictSet, hk]
          · simp [reindexStep, hs]

lemma lastMatch_eq_some (bus : MprisBus) (k : String) (l : List String) (n : String)
    (h : lastMatch bus k l = some n) :
    n ∈ l ∧ pyStartsWith n "org.mpris.MediaPlayer2." = true ∧ bus.desktopEntryOf n = k := by
  induction l with
  | nil => simp [lastMatch] at h
  | cons a rest ih =>
      rw [lastMatch] at h
      cases hrest : lastMatch bus k rest with
      | some m =>
          rw [hrest] at h
          have hmn : m = n := by simpa using h
          rw [hmn] at hrest
          obtain ⟨hm, hs, hk⟩ := ih hrest
          exact ⟨List.mem_cons_of_mem a hm, hs, hk⟩
      | none =>
          rw [hrest] at h
          by_cases hc : (pyStartsWith a "org.mpris.MediaPlayer2." && (bus.desktopEntryOf a == k)) = true
          · rw [if_pos hc] at h
            have han : a = n := by simpa using h
            have hs : pyStartsWith a "org.mpris.MediaPlayer2." = true :=
              (Bool.and_eq_true _ _ ▸ hc).1
            have hk : bus.desktopEntryOf a = k := by
              have h2 := (Bool.and_eq_true _ _ ▸ hc).2
              simpa using h2
            refine ⟨?_, ?_, ?_⟩
            · rw [← han]; exact List.mem_cons_self a rest
            · rw [← han]; exact hs
            · rw [← han]; exact hk
          · rw [if_neg hc] at h
            simp at h

lemma lastMatch_isSome (bus : MprisBus) (k : String) (l : List String) (n : String)
    (hn : n ∈ l) (hs : pyStartsWith n "org.mpris.MediaPlayer2." = true)
    (hk : bus.desktopEntryOf n = k) :
    ∃ m, lastMatch bus k l = some m := by
  induction l with
  | nil => simp at hn
  | cons a rest ih =>
      simp only [lastMatch]
      cases hrest : lastMatch bus k rest with
      | some m => exact ⟨m, rfl⟩
      | none =>
          rcases List.mem_cons.mp hn with ha | ha
          · subst ha
            refine ⟨n, ?_⟩
            rw [if_pos (by simp [hs, hk])]
          · obtain ⟨m, hm⟩ := ih ha
            rw [hm] at hrest
            exact absurd hrest (by simp)

lemma seqResults_ok {α : Type} (l : List (PyResult α)) (h : ∀ x ∈ l, ∃ a, x = .ok a) :
    ∃ xs, seqResults l = .ok xs ∧ xs.length = l.length := by
  induction l with
  | nil => exact ⟨[], rfl, rfl⟩
  | cons x rest ih =>
      obtain ⟨a, ha⟩ := h x (List.mem_cons_self x rest)
      obtain ⟨xs, hxs, hlen⟩ := ih (fun y hy => h y (List.mem_cons_of_mem x hy))
      subst ha
      refine ⟨a :: xs, ?_, by simp [hlen]⟩
      simp [seqResults, hxs]

lemma escapeData_eq_self (l : List Char)
    (h : ∀ c ∈ l, c ≠ '\"') :
    l.foldr (fun c acc => if c = '\"' then '\\' :: '\"' :: acc else c :: acc) [] = l := by
  induction l with
  | nil => rfl
  | cons c rest ih =>
      have hc : c ≠ '\"' := h c (List.mem_cons_self c rest)
      simp [hc, ih (fun d hd => h d (List.mem_cons_of_mem c hd))]

/-- Claim C1 (counterexample): with Hamster unreachable the connection helper
returns `None`, yet `Toggle.activate` raises an AttributeError — an exception
escapes, so the activation is not a silent no-op. -/
theorem C1_counterexample :
    (get_hamster (.dbusException "hamster is not running")).result = none ∧
    Toggle_activate (.dbusException "hamster is not running") =
      .raised (.attributeError "NoneType object has no attribute Toggle") :=
  ⟨rfl, rfl⟩

/-- Claim C1, amended: when `get_hamster()` yields `None`, the unguarded calls
in `Toggle.activate`, `StartActivity.activate` and `ActivitiesSource.get_items`
each raise an AttributeError (attribute access on `None`), instead of returning
silently; only the connection helper itself swallows the DBus exception. -/
theorem C1_amended (r : BusReply) (h : (get_hamster r).result = none)
    (text : String) (now tz : Int) (acts : List (String × String)) :
    Toggle_activate r =
      .raised (.attributeError "NoneType object has no attribute Toggle") ∧
    StartActivity_activate text now tz r =
      .raised (.attributeError "NoneType object has no attribute AddFact") ∧
    ActivitiesSource_get_items r acts =
      .raised (.attributeError "NoneType object has no attribute GetActivities") := by
  refine ⟨?_, ?_, ?_⟩ <;>
    simp [Toggle_activate, StartActivity_activate, ActivitiesSource_get_items,
          callRemote, h]

/-- Claim C1 witness: the amended statement at a concrete failed connection. -/
theorem C1_amended_witness :
    Toggle_activate (.dbusException "e") =
      .raised (.attributeError "NoneType object has no attribute Toggle") ∧
    StartActivity_activate "write report" 1000 3600 (.dbusException "e") =
      .raised (.attributeError "NoneType object has no attribute AddFact") ∧
    ActivitiesSource_get_items (.dbusException "e") [("work", "proj")] =
      .raised (.attributeError "NoneType object has no attribute GetActivities") :=
  C1_amended (.dbusException "e") rfl "write report" 1000 3600 [("work", "proj")]

/-- Claim C2 (counterexample): a text containing a double quote is not forwarded
unchanged — `SendUpdate.activate` escapes each `"` as `\"` before the remote
`update_status` call. -/
theorem C2_counterexample :
    SendUpdate_activate "say \"hi\"" .ok =
      .ok ⟨⟨⟨"org.hotot.service", "/org/hotot/service"⟩, "org.hotot.service"⟩,
           "update_status", [.str "say \\\"hi\\\""]⟩ ∧
    ("say \\\"hi\\\"" : String) ≠ "say \"hi\"" :=
  ⟨rfl, by decide⟩

/-- Claim C2, amended: `SendUpdate.activate` forwards the selected text with
each double-quote character replaced by a backslash-quote sequence as the
single argument of the remote `update_status` call; a text containing no double
quote passes through unchanged. -/
theorem C2_amended (text : String) :
    SendUpdate_activate text .ok =
      .ok ⟨⟨⟨"org.hotot.service", "/org/hotot/service"⟩, "org.hotot.service"⟩,
           "update_status", [.str (escapeQuotes text)]⟩ ∧
    ((∀ c ∈ text.data, c ≠ '\"') → escapeQuotes text = text) := by
  refine ⟨rfl, fun h => ?_⟩
  show String.mk _ = text
  rw [escapeData_eq_self text.data h]

/-- Claim C2 witness: the amended statement at a concrete quote-free text. -/
theorem C2_amended_witness :
    SendUpdate_activate "hello" .ok =
      .ok ⟨⟨⟨"org.hotot.service", "/org/hotot/service"⟩, "org.hotot.service"⟩,
           "update_status", [.str (escapeQuotes "hello")]⟩ ∧
    escapeQuotes "hello" = "hello" :=
  ⟨(C2_amended "hello").1, (C2_amended "hello").2 (by decide)⟩

/-- Claim C3: each connection helper makes exactly one connection attempt per
call; on success it returns the remote interface object (logging nothing), and
on a DBus exception it writes one debug line and returns `None`, with no retry. -/
theorem C3_single_attempt (r : BusReply) :
    (get_hamster r).attempts = 1 ∧ (get_hotot r).attempts = 1 ∧
    (get_hamster .ok).result =
      some ⟨⟨"org.gnome.Hamster", "/org/gnome/Hamster"⟩, "org.gnome.Hamster"⟩ ∧
    (get_hamster .ok).logLines = [] ∧
    (get_hotot .ok).result =
      some ⟨⟨"org.hotot.service", "/org/hotot/service"⟩, "org.hotot.service"⟩ ∧
    (get_hotot .ok).logLines = [] ∧
    (∀ e, (get_hamster (.dbusException e)).result = none ∧
          (get_hamster (.dbusException e)).logLines = [e]) ∧
    (∀ e, (get_hotot (.dbusException e)).result = none ∧
          (get_hotot (.dbusException e)).logLines = [e]) := by
  cases r <;>
    exact ⟨rfl, rfl, rfl, rfl, rfl, rfl, fun e => ⟨rfl, rfl⟩, fun e => ⟨rfl, rfl⟩⟩

/-- Claim C4: `reindex` rebuilds the active-player table from scratch — the
result does not depend on the previous table, so entries not rediscovered are
gone — and the new table holds exactly the players whose current bus names
start with `'org.mpris.MediaPlayer2.'`, keyed by player name (the `DesktopEntry`
property), each value wrapping the object registered under such a bus name. -/
theorem C4_reindex_rebuild (bus : MprisBus) (old old' : List (String × MediaPlayer)) :
    reindex bus old = reindex bus old' ∧
    (∀ k, (∃ p, dictGet (reindex bus old) k = some p) ↔
      ∃ n, n ∈ bus.names ∧ pyStartsWith n "org.mpris.MediaPlayer2." = true ∧
        bus.desktopEntryOf n = k) ∧
    (∀ k p, dictGet (reindex bus old) k = some p →
      ∃ n, n ∈ bus.names ∧ pyStartsWith n "org.mpris.MediaPlayer2." = true ∧
        bus.desktopEntryOf n = k ∧ p = ⟨⟨n, "/org/mpris/MediaPlayer2"⟩⟩) := by
  have key : ∀ k, dictGet (reindex bus old) k =
      (match lastMatch bus k bus.names with
       | some n => some ⟨⟨n, "/org/mpris/MediaPlayer2"⟩⟩
       | none => none) := by
    intro k
    have h := dictGet_foldl_reindexStep bus bus.names [] k
    simpa [reindex, dictGet] using h
  refine ⟨rfl, ?_, ?_⟩
  · intro k
    constructor
    · rintro ⟨p, hp⟩
      rw [key k] at hp
      cases hlm : lastMatch bus k bus.names with
      | some n =>
          obtain ⟨hm, hs, hk⟩ := lastMatch_eq_some bus k bus.names n hlm
          exact ⟨n, hm, hs, hk⟩
      | none => rw [hlm] at hp; simp at hp
    · rintro ⟨n, hm, hs, hk⟩
      obtain ⟨m, hlm⟩ := lastMatch_isSome bus k bus.names n hm hs hk
      exact ⟨_, by rw [key k, hlm]⟩
  · intro k p hp
    rw [key k] at hp
    cases hlm : lastMatch bus k bus.names with
    | some n =>
        rw [hlm] at hp
        obtain ⟨hm, hs, hk⟩ := lastMatch_eq_some bus k bus.names n hlm
        have hpn : p = ⟨⟨n, "/org/mpris/MediaPlayer2"⟩⟩ := by
          have := hp.symm
          simpa using this
        exact ⟨n, hm, hs, hk, hpn⟩
    | none => rw [hlm] at hp; simp at hp

/-- Claim C4 witness: rescanning the sample bus discards a stale table and
registers the discovered player under its name. -/
theorem C4_reindex_rebuild_witness :
    reindex sampleBus
        [("stale", ⟨⟨"org.mpris.MediaPlayer2.stale", "/org/mpris/MediaPlayer2"⟩⟩)] =
      reindex sampleBus [] ∧
    (∃ p, dictGet (reindex sampleBus
        [("stale", ⟨⟨"org.mpris.MediaPlayer2.stale", "/org/mpris/MediaPlayer2"⟩⟩)])
        "vlc" = some p) :=
  ⟨(C4_reindex_rebuild sampleBus _ []).1,
   ((C4_reindex_rebuild sampleBus _ []).2.1 "vlc").mpr
     ⟨"org.mpris.MediaPlayer2.vlc", by decide, by decide, by decide⟩⟩

/-- Claim C5: `_signal_update` triggers `reindex` if and only if it received at
least one argument and the first argument starts with
`'org.mpris.MediaPlayer2.'`; any other notification leaves the table unchanged. -/
theorem C5_signal_update (bus : MprisBus) (st : List (String × MediaPlayer))
    (args : List String) :
    ((signal_update bus st args).2 = true ↔
      ∃ a rest, args = a :: rest ∧ pyStartsWith a "org.mpris.MediaPlayer2." = true) ∧
    ((signal_update bus st args).2 = true →
      (signal_update bus st args).1 = reindex bus st) ∧
    ((signal_update bus st args).2 = false → (signal_update bus st args).1 = st) := by
  cases args with
  | nil =>
      refine ⟨⟨fun ht => ?_, fun ⟨a, rest, heq, _⟩ => ?_⟩, fun ht => ?_, fun _ => rfl⟩
      · simp [signal_update] at ht
      · exact absurd heq (by simp)
      · simp [signal_update] at ht
  | cons a rest =>
      by_cases hs : pyStartsWith a "org.mpris.MediaPlayer2." = true
      · refine ⟨⟨fun _ => ⟨a, rest, rfl, hs⟩, fun _ => ?_⟩, fun _ => ?_, fun hf => ?_⟩
        · simp [signal_update, hs]
        · simp [signal_update, hs]
        · simp [signal_update, hs] at hf
      · have hs' : pyStartsWith a "org.mpris.MediaPlayer2." = false :=
          Bool.eq_false_iff.mpr hs
        refine ⟨⟨fun ht => ?_, fun ⟨a', rest', heq, hsa⟩ => ?_⟩, fun ht => ?_, fun _ => ?_⟩
        · simp [signal_update, hs'] at ht
        · have ha : a = a' := (List.cons.injEq a rest a' rest').mp heq |>.1
          rw [← ha] at hsa
          exact absurd hsa hs
        · simp [signal_update, hs'] at ht
        · simp [signal_update, hs']

/-- Claim C5 witness: an MPRIS2 name-ownership change rescans the bus, an
unrelated notification leaves the table untouched. -/
theorem C5_signal_update_witness :
    (signal_update sampleBus sampleTable
      ["org.mpris.MediaPlayer2.vlc", "", ":1.5"]).1 = reindex sampleBus sampleTable ∧
    (signal_update sampleBus sampleTable ["org.freedesktop.Notifications", ":1.2", ""]).1 =
      sampleTable :=
  ⟨(C5_signal_update sampleBus sampleTable ["org.mpris.MediaPlayer2.vlc", "", ":1.5"]).2.1
     (by decide),
   (C5_signal_update sampleBus sampleTable
     ["org.freedesktop.Notifications", ":1.2", ""]).2.2 (by decide)⟩

/-- Claim C6: `MediaPlayerCommandsSource.get_items` yields exactly seven command
leaves in the order PlayPause, Play, Stop, Pause, Next, Previous, Quit, and on
any player each leaf's `do_command` invokes the matching remote procedure —
`Quit` on the root interface, every other command on the player interface. -/
theorem C6_command_leaves (p : MediaPlayer) :
    MediaPlayerCommandsSource_get_items.length = 7 ∧
    MediaPlayerCommandsSource_get_items =
      [.playPause, .play, .stop, .pause, .next, .previous, .quit] ∧
    MediaPlayerCommandsSource_get_items.map (fun c => do_command c p) =
      [⟨p.player, "PlayPause", []⟩, ⟨p.player, "Play", []⟩, ⟨p.player, "Stop", []⟩,
       ⟨p.player, "Pause", []⟩, ⟨p.player, "Next", []⟩, ⟨p.player, "Previous", []⟩,
       ⟨p.root, "Quit", []⟩] :=
  ⟨rfl, rfl, rfl⟩

/-- Claim C7: `HototAction.valid_for_item` holds iff the item's name is `Hotot`
and the Hotot connection succeeds, and `Toggle.valid_for_item` holds iff the
item's id is one of the Hamster application names and the Hamster connection
succeeds. -/
theorem C7_valid_for_item (itemName itemId : String) (rHam rHot : BusReply) :
    (HototAction_valid_for_item itemName rHot = true ↔
      itemName = "Hotot" ∧ (get_hotot rHot).result ≠ none) ∧
    (Toggle_valid_for_item itemId rHam = true ↔
      itemId ∈ HAMSTER_APPNAMES ∧ (get_hamster rHam).result ≠ none) := by
  constructor
  · simp [HototAction_valid_for_item, Option.isSome_iff_ne_none]
  · simp [Toggle_valid_for_item, Option.isSome_iff_ne_none]

/-- Claim C7 witness: both validity checks at a running instance. -/
theorem C7_valid_for_item_witness :
    HototAction_valid_for_item "Hotot" .ok = true ∧
    Toggle_valid_for_item "hamster-indicator" .ok = true :=
  ⟨(C7_valid_for_item "Hotot" "hamster-indicator" .ok .ok).1.mpr ⟨rfl, by decide⟩,
   (C7_valid_for_item "Hotot" "hamster-indicator" .ok .ok).2.mpr ⟨by decide, by decide⟩⟩

/-- Claim C8: both timestamps forwarded to Hamster are the current epoch time
shifted by the local timezone offset (`time.time() - time.timezone`):
`StartActivity.activate` passes it as the start time of `AddFact` together with
end time `0` and temporary `False`, `StopTrackingLeaf.run` passes it to
`StopTracking`; whenever the timezone offset is non-zero, the forwarded value
differs from the raw epoch time. -/
theorem C8_shifted_timestamps (text : String) (now tz : Int) :
    StartActivity_activate text now tz .ok =
      .ok ⟨⟨⟨"org.gnome.Hamster", "/org/gnome/Hamster"⟩, "org.gnome.Hamster"⟩,
           "AddFact", [.str text, .int (now - tz), .int 0, .bool false]⟩ ∧
    StopTrackingLeaf_run now tz .ok =
      .ok ⟨⟨⟨"org.gnome.Hamster", "/org/gnome/Hamster"⟩, "org.gnome.Hamster"⟩,
           "StopTracking", [.int (now - tz)]⟩ ∧
    (tz ≠ 0 → now - tz ≠ now) := by
  refine ⟨rfl, rfl, fun htz hc => htz ?_⟩
  omega

/-- Claim C8 witness: the shifted timestamp at a concrete clock and offset. -/
theorem C8_shifted_timestamps_witness :
    StartActivity_activate "write report" 1700000000 (-3600) .ok =
      .ok ⟨⟨⟨"org.gnome.Hamster", "/org/gnome/Hamster"⟩, "org.gnome.Hamster"⟩,
           "AddFact", [.str "write report", .int (1700000000 - (-3600)), .int 0,
                       .bool false]⟩ ∧
    ((1700000000 : Int) - (-3600) ≠ 1700000000) :=
  ⟨(C8_shifted_timestamps "write report" 1700000000 (-3600)).1,
   (C8_shifted_timestamps "write report" 1700000000 (-3600)).2.2 (by decide)⟩

/-- Claim C9: for every record returned by `GetActivities`,
`ActivitiesSource.get_items` yields one leaf whose name is the record's first
field, with `'@'` followed by the second field appended exactly when the second
field is non-empty. -/
theorem C9_activity_leaves (acts : List (String × String)) :
    ActivitiesSource_get_items .ok acts = .ok (acts.map formatActivity) ∧
    (∀ a c, c ≠ "" → formatActivity (a, c) = a ++ "@" ++ c) ∧
    (∀ a, formatActivity (a, "") = a) := by
  refine ⟨rfl, fun a c hc => ?_, fun a => ?_⟩
  · simp [formatActivity, hc]
  · simp [formatActivity]

/-- Claim C9 witness: the leaf names at a concrete pair of records, one with a
category and one without. -/
theorem C9_activity_leaves_witness :
    ActivitiesSource_get_items .ok [("work", "proj"), ("idle", "")] =
      .ok ([("work", "proj"), ("idle", "")].map formatActivity) ∧
    formatActivity ("work", "proj") = "work" ++ "@" ++ "proj" :=
  ⟨(C9_activity_leaves [("work", "proj"), ("idle", "")]).1,
   (C9_activity_leaves [("work", "proj"), ("idle", "")]).2.1 "work" "proj" (by decide)⟩

/-- Claim C10: `players` yields exactly the keys of the active-player table, so
`get_player` succeeds on every yielded name, and `get_actions_for_leaf` builds
one `MediaPlayerAction` per yielded name for a command leaf — never hitting a
missing key — and the empty list for any other leaf. -/
theorem C10_players_lookup_safe (t : List (String × MediaPlayer)) :
    registry_players t = dictKeys t ∧
    (∀ name ∈ registry_players t, ∃ p, registry_get_player t name = .ok p) ∧
    (∀ c : CommandLeaf, ∃ acts, get_actions_for_leaf t (.command c) = .ok acts ∧
      acts.length = (registry_players t).length) ∧
    (∀ s : String, get_actions_for_leaf t (.other s) = .ok []) := by
  refine ⟨rfl, ?_, ?_, fun s => rfl⟩
  · intro name hn
    obtain ⟨v, hv⟩ := dictGet_isSome_of_mem t name hn
    exact ⟨v, by simp [registry_get_player, hv]⟩
  · intro c
    have h : ∀ x ∈ (registry_players t).map (mkMediaPlayerAction t), ∃ a, x = .ok a := by
      intro x hx
      obtain ⟨name, hn, hmk⟩ := List.mem_map.mp hx
      obtain ⟨v, hv⟩ := dictGet_isSome_of_mem t name hn
      exact ⟨⟨name, v⟩, by rw [← hmk]; simp [mkMediaPlayerAction, hv]⟩
    obtain ⟨xs, hxs, hlen⟩ := seqResults_ok _ h
    exact ⟨xs, hxs, by rw [hlen, List.length_map]⟩

/-- Claim C10 witness: lookups on the sample table with one registered player. -/
theorem C10_players_lookup_safe_witness :
    (∃ p, registry_get_player sampleTable "vlc" = .ok p) ∧
    (∃ acts, get_actions_for_leaf sampleTable (.command .playPause) = .ok acts ∧
      acts.length = (registry_players sampleTable).length) :=
  ⟨(C10_players_lookup_safe sampleTable).2.1 "vlc" (by decide),
   (C10_players_lookup_safe sampleTable).2.2.1 .playPause⟩
